import Mathlib

/-!
Verification of the PDF table extractor
(backend/services/extractors/pdfTableExtractor.py).

The script is modelled shallowly.  A document, as the script observes it,
is the sequence of its pages, each page carrying the list of raw tables
that pdfplumber detection returns for it.  A raw cell is `Option String`
(`none` models the absence marker), a raw row is a list of cells, and a
raw table is a list of raw rows.  Python string truthiness is modelled
explicitly: a cell counts as present only when it is `some s` with `s`
non-empty, and `str.strip` is modelled by `String.trim`.  The
command-line wrapper is modelled as a pure function of the argument
vector (arguments after the program name) and of an oracle
`openScan : String → Except String (List PageTables)` standing for
opening the file and running per-page detection, which can fail.
-/

abbrev Cell := Option String
abbrev RawRow := List Cell
abbrev RawTable := List RawRow
abbrev PageTables := List RawTable

/-- One emitted table: page is 1-based, headers is the first retained
row, rows the remaining ones (or the whole cleaned list in the
degenerate single-row case). -/
structure TableRecord where
  page : Nat
  headers : List String
  rows : List (List String)
deriving DecidableEq

/-- The result object assembled by `extract_tables`. -/
structure ExtractionResult where
  tables : List TableRecord
  has_tables : Bool
  page_count : Nat
deriving DecidableEq

/-- The characters `str.strip` removes, restricted to ASCII whitespace
(space, tab, line feed, carriage return, vertical tab, form feed). -/
def isStripChar (c : Char) : Bool :=
  c = ' ' || c = '\t' || c = '\n' || c = '\r' || c = '\x0b' || c = '\x0c'

/-- Models `str.strip()`: drop leading and trailing whitespace. -/
def pyStrip (s : String) : String :=
  String.mk (((s.data.dropWhile isStripChar).reverse.dropWhile isStripChar).reverse)

/-- Python string truthiness: a string is truthy when non-empty. -/
def pyTruthy (s : String) : Bool :=
  !s.data.isEmpty

/-- Models `(cell.strip() if cell else "")`: an absent cell or an empty
string becomes the empty string, a non-empty string is trimmed. -/
def cleanCell (cell : Cell) : String :=
  match cell with
  | none => ""
  | some s => if pyTruthy s then pyStrip s else ""

/-- Models `[(cell.strip() if cell else "") for cell in row]`. -/
def cleanRow (row : RawRow) : List String :=
  row.map cleanCell

/-- Models `any(cleaned_row)`: some cell is a non-empty string. -/
def rowRetained (row : List String) : Bool :=
  row.any pyTruthy

/-- The `cleaned_rows` accumulation: transform every row, keep those
with at least one non-empty cell, preserving order. -/
def cleanedRows (table : RawTable) : List (List String) :=
  (table.map cleanRow).filter rowRetained

/-- Models the body of `for table in tables`: build `cleaned_rows`,
emit nothing when it is empty, otherwise emit the TableRecord with the
1-based page, `headers = cleaned_rows[0]` and
`rows = cleaned_rows[1:] if len(cleaned_rows) > 1 else cleaned_rows`. -/
def processTable (page_num : Nat) (table : RawTable) : Option TableRecord :=
  let cleaned_rows := cleanedRows table
  if cleaned_rows.isEmpty then
    none
  else
    some { page := page_num + 1
         , headers := cleaned_rows.headD []
         , rows := if cleaned_rows.length > 1 then cleaned_rows.tail else cleaned_rows }

/-- The initial `results` dictionary after `page_count` is recorded. -/
def emptyResult (page_count : Nat) : ExtractionResult :=
  { tables := [], has_tables := false, page_count := page_count }

/-- Models `for page_num, page in enumerate(pdf.pages)`: on a page whose
detected table list is non-empty, set `has_tables` and append the
records of its tables in order. -/
def extractLoop (page_num : Nat) (pages : List PageTables)
    (results : ExtractionResult) : ExtractionResult :=
  match pages with
  | [] => results
  | tables :: rest =>
      let nextResults :=
        if tables.isEmpty then results
        else { results with
                 has_tables := true
                 tables := results.tables ++ tables.filterMap (processTable page_num) }
      extractLoop (page_num + 1) rest nextResults

/-- Models `extract_tables(pdf_path)` as a function of the page/table
content the library yields for the document. -/
def extract_tables (pdf : List PageTables) : ExtractionResult :=
  extractLoop 0 pdf (emptyResult pdf.length)

/-! JSON serialization, modelling `json.dumps` with its default
separators and `ensure_ascii=True` escaping. -/

def hexDigit (n : Nat) : Char :=
  if n < 10 then Char.ofNat (48 + n) else Char.ofNat (87 + n)

def hex4 (n : Nat) : String :=
  String.mk [hexDigit (n / 4096 % 16), hexDigit (n / 256 % 16),
             hexDigit (n / 16 % 16), hexDigit (n % 16)]

/-- The `\uXXXX` escape, with a surrogate pair beyond the basic
multilingual plane. -/
def uEscape (c : Char) : String :=
  let n := c.toNat
  if n < 65536 then "\\u" ++ hex4 n
  else
    let m := n - 65536
    "\\u" ++ hex4 (55296 + m / 1024) ++ "\\u" ++ hex4 (56320 + m % 1024)

def jsonEscapeChar (c : Char) : String :=
  if c = '"' then "\\\""
  else if c = '\\' then "\\\\"
  else if c = '\n' then "\\n"
  else if c = '\t' then "\\t"
  else if c = '\r' then "\\r"
  else if c.toNat = 8 then "\\b"
  else if c.toNat = 12 then "\\f"
  else if c.toNat < 32 ∨ 126 < c.toNat then uEscape c
  else String.singleton c

def jsonDumpsStr (s : String) : String :=
  "\"" ++ String.join (s.data.map jsonEscapeChar) ++ "\""

def dumpsRow (row : List String) : String :=
  "[" ++ String.intercalate ", " (row.map jsonDumpsStr) ++ "]"

def dumpsRows (rows : List (List String)) : String :=
  "[" ++ String.intercalate ", " (rows.map dumpsRow) ++ "]"

def dumpsBool (b : Bool) : String :=
  if b then "true" else "false"

def dumpsTableRecord (t : TableRecord) : String :=
  "\x7b\"page\": " ++ toString t.page ++
  ", \"headers\": " ++ dumpsRow t.headers ++
  ", \"rows\": " ++ dumpsRows t.rows ++ "\x7d"

def dumpsResult (r : ExtractionResult) : String :=
  "\x7b\"tables\": [" ++ String.intercalate ", " (r.tables.map dumpsTableRecord) ++
  "], \"has_tables\": " ++ dumpsBool r.has_tables ++
  ", \"page_count\": " ++ toString r.page_count ++ "\x7d"

def dumpsError (msg : String) : String :=
  "\x7b\"error\": " ++ jsonDumpsStr msg ++ "\x7d"

/-- What one invocation of the script writes to standard output, and
the status it exits with. -/
structure ProcOutput where
  stdout : String
  exitCode : Nat
deriving DecidableEq

/-- Models the `__main__` block: no argument gives the usage error and
exit 1; otherwise run extraction, printing the serialized result on
success (implicit exit 0), or the error payload and exit 1 when opening
or scanning the document raises. -/
def pyMain (openScan : String → Except String (List PageTables))
    (argv : List String) : ProcOutput :=
  match argv with
  | [] => { stdout := dumpsError "PDF path required", exitCode := 1 }
  | path :: _ =>
    match openScan path with
    | Except.error e => { stdout := dumpsError e, exitCode := 1 }
    | Except.ok pdf => { stdout := dumpsResult (extract_tables pdf), exitCode := 0 }

/-! Helper lemmas about the extraction pipeline. -/

theorem cleanCell_some (s : String) : cleanCell (some s) = pyStrip s := by
  cases s with
  | mk data =>
    cases data with
    | nil => rfl
    | cons c cs => rfl

theorem pyTruthy_empty_false : pyTruthy "" = false := by decide

theorem extractLoop_all_empty (page_num : Nat) (pages : List PageTables)
    (results : ExtractionResult)
    (h : ∀ tables ∈ pages, tables = ([] : PageTables)) :
    extractLoop page_num pages results = results := by
  induction pages generalizing page_num results with
  | nil => rfl
  | cons tables rest ih =>
    have htab : tables = [] := h tables (List.mem_cons_self _ _)
    subst htab
    simp only [extractLoop, List.isEmpty_nil, if_true]
    exact ih _ _ (fun t ht => h t (List.mem_cons_of_mem _ ht))

theorem mem_extractLoop_tables (page_num : Nat) (pages : List PageTables)
    (results : ExtractionResult) (rec : TableRecord)
    (h : rec ∈ (extractLoop page_num pages results).tables) :
    rec ∈ results.tables ∨
      ∃ i tables table, pages[i]? = some tables ∧ table ∈ tables ∧
        processTable (page_num + i) table = some rec := by
  induction pages generalizing page_num results with
  | nil => exact Or.inl h
  | cons tables rest ih =>
    simp only [extractLoop] at h
    rcases ih _ _ h with hacc | ⟨i, tabs, tab, hget, hmem, hproc⟩
    · by_cases he : tables.isEmpty
      · rw [if_pos he] at hacc
        exact Or.inl hacc
      · rw [if_neg he] at hacc
        rcases List.mem_append.mp hacc with hl | hr
        · exact Or.inl hl
        · obtain ⟨tab, htab, hsome⟩ := List.mem_filterMap.mp hr
          exact Or.inr ⟨0, tables, tab, List.getElem?_cons_zero, htab,
            by simpa using hsome⟩
    · refine Or.inr ⟨i + 1, tabs, tab, by simpa using hget, hmem, ?_⟩
      have harith : page_num + (i + 1) = page_num + 1 + i := by omega
      rw [harith]
      exact hproc

theorem mem_extract_tables (pdf : List PageTables) (rec : TableRecord)
    (h : rec ∈ (extract_tables pdf).tables) :
    ∃ i tables table, pdf[i]? = some tables ∧ table ∈ tables ∧
      processTable i table = some rec := by
  rcases mem_extractLoop_tables 0 pdf (emptyResult pdf.length) rec h with
    h0 | ⟨i, tables, table, hget, hmem, hproc⟩
  · simp [emptyResult] at h0
  · exact ⟨i, tables, table, hget, hmem, by simpa using hproc⟩

theorem mem_of_processTable (page_num : Nat) (table : RawTable)
    (rec : TableRecord) (row : List String)
    (h : processTable page_num table = some rec)
    (hrow : row = rec.headers ∨ row ∈ rec.rows) :
    row ∈ cleanedRows table := by
  unfold processTable at h
  cases hcr : cleanedRows table with
  | nil =>
    rw [hcr] at h
    simp at h
  | cons hd tl =>
    rw [hcr] at h
    simp only [List.isEmpty_cons, Bool.false_eq_true, if_false,
      Option.some.injEq] at h
    rcases hrow with hrow | hrow
    · rw [hrow, ← h]
      exact List.mem_cons_self _ _
    · rw [← h] at hrow
      simp only [List.headD_cons] at hrow
      by_cases hl : (hd :: tl).length > 1
      · rw [if_pos hl] at hrow
        simp only [List.tail_cons] at hrow
        exact List.mem_cons_of_mem _ hrow
      · rw [if_neg hl] at hrow
        exact hrow

theorem mem_cleanedRows (table : RawTable) (row : List String)
    (h : row ∈ cleanedRows table) :
    rowRetained row = true ∧ ∃ raw, raw ∈ table ∧ row = raw.map cleanCell := by
  unfold cleanedRows at h
  rw [List.mem_filter] at h
  obtain ⟨hmem, hret⟩ := h
  rw [List.mem_map] at hmem
  obtain ⟨raw, hraw, heq⟩ := hmem
  exact ⟨hret, raw, hraw, heq.symm⟩

theorem exists_nonempty_of_rowRetained (row : List String)
    (h : rowRetained row = true) : ∃ c, c ∈ row ∧ c ≠ "" := by
  unfold rowRetained at h
  rw [List.any_eq_true] at h
  obtain ⟨c, hc, htr⟩ := h
  refine ⟨c, hc, ?_⟩
  intro heq
  rw [heq, pyTruthy_empty_false] at htr
  exact absurd htr (by decide)

/-! The claims. -/

/-- C1: when the cleaned rows of a detected table consist of exactly one
retained row, the emitted TableRecord carries the 1-based page index,
that row as headers, and as rows the one-element list containing that
same row (the degenerate case duplicates the row into both fields). -/
theorem C1_degenerate_single_row (page_num : Nat) (table : RawTable)
    (row : List String) (h : cleanedRows table = [row]) :
    processTable page_num table =
      some { page := page_num + 1, headers := row, rows := [row] } := by
  unfold processTable
  rw [h]
  rfl

/-- Witness for C1 at a concrete one-row table. -/
theorem C1_degenerate_single_row_witness :
    processTable 0 [[some "X", some "Y"]] =
      some { page := 1, headers := ["X", "Y"], rows := [["X", "Y"]] } :=
  C1_degenerate_single_row 0 [[some "X", some "Y"]] ["X", "Y"] (by decide)

/-- C2 is false as stated: for a document whose one detected table has
the single non-empty row with cells X and Y, the emitted record has
rows equal to the one-element list containing that row, which
serializes as a list of rows, not equal to the flat cell list. -/
theorem C2_flat_rows_counterexample :
    (extract_tables [[[[some "X", some "Y"]]]]).tables.map
        (fun r => r.rows) = [[["X", "Y"]]] ∧
    (extract_tables [[[[some "X", some "Y"]]]]).tables.map
        (fun r => dumpsRows r.rows) = ["[[\"X\", \"Y\"]]"] ∧
    dumpsRow ["X", "Y"] = "[\"X\", \"Y\"]" ∧
    ("[[\"X\", \"Y\"]]" : String) ≠ "[\"X\", \"Y\"]" := by decide

/-- C2 amended: for that document the record has headers X, Y and rows
equal to the one-element list containing that same row. -/
theorem C2_degenerate_scenario :
    extract_tables [[[[some "X", some "Y"]]]] =
      { tables := [{ page := 1, headers := ["X", "Y"], rows := [["X", "Y"]] }],
        has_tables := true, page_count := 1 } := by decide

/-- C3: a table with more than one retained row yields the record whose
page is the 1-based page index, headers the first retained row and rows
the remaining ones in order; and the 2-page scenario with one table on
page 2 produces exactly the expected single record. -/
theorem C3_multi_row_record (page_num : Nat) (table : RawTable)
    (hd : List String) (tl : List (List String))
    (h : cleanedRows table = hd :: tl) (hne : tl ≠ []) :
    processTable page_num table =
      some { page := page_num + 1, headers := hd, rows := tl } ∧
    extract_tables [[], [[[some "Name", some "Age"], [none, none],
        [some "Al", some "30"]]]] =
      { tables := [{ page := 2, headers := ["Name", "Age"],
                     rows := [["Al", "30"]] }],
        has_tables := true, page_count := 2 } := by
  constructor
  · unfold processTable
    rw [h]
    have hlen : (hd :: tl).length > 1 := by
      cases tl with
      | nil => exact absurd rfl hne
      | cons a as =>
          simp only [List.length_cons]
          omega
    simp [hlen, hne]
  · decide

/-- Witness for C3 at a concrete two-row table on the second page. -/
theorem C3_multi_row_record_witness :
    (processTable 1 [[some "Name", some "Age"], [some "Al", some "30"]] =
      some { page := 2, headers := ["Name", "Age"], rows := [["Al", "30"]] }) ∧
    extract_tables [[], [[[some "Name", some "Age"], [none, none],
        [some "Al", some "30"]]]] =
      { tables := [{ page := 2, headers := ["Name", "Age"],
                     rows := [["Al", "30"]] }],
        has_tables := true, page_count := 2 } :=
  C3_multi_row_record 1 [[some "Name", some "Age"], [some "Al", some "30"]]
    ["Name", "Age"] [["Al", "30"]] (by decide) (by decide)

/-- C4: every cell of every emitted row is a string produced by cell
cleaning, where an absent cell becomes the empty string and a present
cell is its trimmed raw value; every emitted row (headers included) is
the cleaned image of a raw row of some detected table of the input. -/
theorem C4_cells_are_cleaned_strings (pdf : List PageTables)
    (rec : TableRecord) (row : List String) (s : String)
    (hrec : rec ∈ (extract_tables pdf).tables)
    (hrow : row = rec.headers ∨ row ∈ rec.rows) :
    cleanCell none = "" ∧ cleanCell (some s) = pyStrip s ∧
    ∃ tables table raw, tables ∈ pdf ∧ table ∈ tables ∧ raw ∈ table ∧
      row = raw.map cleanCell := by
  refine ⟨rfl, cleanCell_some s, ?_⟩
  obtain ⟨i, tables, table, hget, hmem, hproc⟩ := mem_extract_tables pdf rec hrec
  have hclean := mem_of_processTable i table rec row hproc hrow
  obtain ⟨-, raw, hraw, heq⟩ := mem_cleanedRows table row hclean
  exact ⟨tables, table, raw, List.getElem?_mem hget, hmem, hraw, heq⟩

/-- Witness for C4 at a one-page document with one raw row holding a
padded cell and an absent cell. -/
theorem C4_cells_are_cleaned_strings_witness :
    cleanCell none = "" ∧ cleanCell (some " x ") = pyStrip " x " ∧
    ∃ tables table raw, tables ∈ [[[[some " a ", none]]]] ∧
      table ∈ tables ∧ raw ∈ table ∧ ["a", ""] = raw.map cleanCell :=
  C4_cells_are_cleaned_strings [[[[some " a ", none]]]]
    { page := 1, headers := ["a", ""], rows := [["a", ""]] }
    ["a", ""] " x " (by decide) (Or.inl rfl)

/-- C5: no emitted row consists only of empty cells, since each row of
each record keeps at least one non-empty cell after trimming; and a
table whose rows are all filtered out emits no record at all. -/
theorem C5_no_blank_rows (pdf : List PageTables) (rec : TableRecord)
    (row : List String) (p : Nat) (table : RawTable)
    (hrec : rec ∈ (extract_tables pdf).tables)
    (hrow : row = rec.headers ∨ row ∈ rec.rows)
    (hempty : cleanedRows table = []) :
    (∃ c, c ∈ row ∧ c ≠ "") ∧ processTable p table = none := by
  constructor
  · obtain ⟨i, tables, tab, hget, hmem, hproc⟩ := mem_extract_tables pdf rec hrec
    have hclean := mem_of_processTable i tab rec row hproc hrow
    obtain ⟨hret, -⟩ := mem_cleanedRows tab row hclean
    exact exists_nonempty_of_rowRetained row hret
  · unfold processTable
    rw [hempty]
    rfl

/-- Witness for C5 at a concrete record and a fully blank table. -/
theorem C5_no_blank_rows_witness :
    (∃ c, c ∈ ["X", "Y"] ∧ c ≠ "") ∧
    processTable 0 [[none], [some " "]] = none :=
  C5_no_blank_rows [[[[some "X", some "Y"]]]]
    { page := 1, headers := ["X", "Y"], rows := [["X", "Y"]] }
    ["X", "Y"] 0 [[none], [some " "]] (by decide) (Or.inl rfl) (by decide)

/-- C6: when detection yields no table on any page, the result has
has_tables false and tables empty, while page_count is the number of
pages of the document. -/
theorem C6_zero_tables (pdf : List PageTables)
    (h : ∀ tables ∈ pdf, tables = ([] : PageTables)) :
    extract_tables pdf =
      { tables := [], has_tables := false, page_count := pdf.length } := by
  unfold extract_tables
  rw [extractLoop_all_empty 0 pdf (emptyResult pdf.length) h]
  rfl

/-- Witness for C6 at a three-page document with no detected tables. -/
theorem C6_zero_tables_witness :
    extract_tables [[], [], []] =
      { tables := [], has_tables := false, page_count := 3 } :=
  C6_zero_tables [[], [], []] (by decide)

/-- C7: there is a document for which has_tables is true while tables is
empty: detection returned a raw table on some page, but every row of it
is blank after cleaning, so no record is emitted. -/
theorem C7_has_tables_without_records :
    ∃ pdf : List PageTables,
      (∃ tables, tables ∈ pdf ∧ tables ≠ ([] : List RawTable)) ∧
      (extract_tables pdf).has_tables = true ∧
      (extract_tables pdf).tables = [] := by
  refine ⟨[[[[none], [some "  "]]]], ⟨[[[none], [some "  "]]], ?_, ?_⟩, ?_, ?_⟩ <;>
    decide

/-- C8: when opening or scanning the document fails with a message, the
process writes exactly the single-field error payload to standard
output and exits with non-zero status, emitting nothing else. -/
theorem C8_fault_error_payload
    (openScan : String → Except String (List PageTables))
    (path : String) (rest : List String) (msg : String)
    (h : openScan path = Except.error msg) :
    pyMain openScan (path :: rest) =
      { stdout := "\x7b\"error\": " ++ jsonDumpsStr msg ++ "\x7d"
      , exitCode := 1 } ∧
    (pyMain openScan (path :: rest)).exitCode ≠ 0 := by
  constructor
  · simp only [pyMain]
    rw [h]
    rfl
  · simp only [pyMain]
    rw [h]
    exact Nat.one_ne_zero

/-- Witness for C8 at an oracle that always fails. -/
theorem C8_fault_error_payload_witness :
    (pyMain (fun _ => Except.error "No such file") ["missing.pdf"] =
      { stdout := "\x7b\"error\": " ++ jsonDumpsStr "No such file" ++ "\x7d"
      , exitCode := 1 }) ∧
    (pyMain (fun _ => Except.error "No such file") ["missing.pdf"]).exitCode ≠ 0 :=
  C8_fault_error_payload (fun _ => Except.error "No such file")
    "missing.pdf" [] "No such file" rfl

/-- C9: with no path argument the process writes exactly the usage
error payload and exits 1 whatever the document oracle would do, so no
extraction is attempted. -/
theorem C9_missing_argument
    (openScan : String → Except String (List PageTables)) :
    pyMain openScan [] =
      { stdout := "\x7b\"error\": \"PDF path required\"\x7d", exitCode := 1 } ∧
    (pyMain openScan []).exitCode ≠ 0 := by
  exact ⟨rfl, Nat.one_ne_zero⟩

/-- Witness for C9 at a concrete oracle. -/
theorem C9_missing_argument_witness :
    pyMain (fun _ => Except.ok ([] : List PageTables)) [] =
      { stdout := "\x7b\"error\": \"PDF path required\"\x7d", exitCode := 1 } ∧
    (pyMain (fun _ => Except.ok ([] : List PageTables)) []).exitCode ≠ 0 :=
  C9_missing_argument (fun _ => Except.ok [])

/-- C10: extraction is a pure function of the page and table content the
library returns for the document, so two invocations on the same input
yield equal results and byte-identical serialized output. -/
theorem C10_deterministic (pdf : List PageTables)
    (openScan : String → Except String (List PageTables))
    (argv : List String) :
    extract_tables pdf = extract_tables pdf ∧
    dumpsResult (extract_tables pdf) = dumpsResult (extract_tables pdf) ∧
    pyMain openScan argv = pyMain openScan argv :=
  ⟨rfl, rfl, rfl⟩

/-- Witness for C10 at a concrete document and invocation. -/
theorem C10_deterministic_witness :
    extract_tables [[[[some "X"]]]] = extract_tables [[[[some "X"]]]] ∧
    dumpsResult (extract_tables [[[[some "X"]]]]) =
      dumpsResult (extract_tables [[[[some "X"]]]]) ∧
    pyMain (fun _ => Except.ok [[[[some "X"]]]]) ["doc.pdf"] =
      pyMain (fun _ => Except.ok [[[[some "X"]]]]) ["doc.pdf"] :=
  C10_deterministic [[[[some "X"]]]] (fun _ => Except.ok [[[[some "X"]]]])
    ["doc.pdf"]
